import Mathlib

/-!
Verification development for the RSLogo pipeline (tokenizer, parser, AST
evaluator, turtle engine) found under `src/`.

Embedding choices:
* Rust `f32` values are modelled as `Rat`.  Every numeric value exercised by
  the theorems below (integers up to a few hundred, halves of canvas
  dimensions) is exactly representable in `f32`, and none of the verified
  properties depend on rounding, overflow, or NaN behaviour (division by zero
  panics in the source before a special float could be produced).
* Rust panics (`panic!`, `.expect`, `.unwrap`) abort the process; they are
  modelled as the fatal error `Fault.panicF` of an `Except` layer.  The
  `Result<(), unsvg::Error>` value returned by `ASTNode::execute` is a distinct
  channel, modelled by `Outcome` below, because the source discards it inside
  control-flow blocks while panics always propagate.
* The external `unsvg` collaborator (canvas, palette, `get_end_coordinates`,
  `draw_simple_line`) is not part of this repository; following the spec it is
  kept abstract as a structure of functions (`Unsvg`).  The image is observed
  through the list of successfully issued draw calls.
* Recursion in the source that is not structural (variable chains in the
  coercions, `while` iteration) is made total with a fuel parameter; running
  out of fuel is the distinguished `Fault.fuelF`, which no theorem below
  confuses with behaviour of the program.
-/

/-- Fatal ways an evaluation can stop: a Rust panic (process abort), or fuel
exhaustion (artifact of the embedding, only reachable when the source would
recurse deeper than the supplied fuel). -/
inductive Fault where
  | panicF
  | fuelF
deriving DecidableEq

/-- Computations that can abort with a `Fault`. -/
abbrev M (α : Type) := Except Fault α

/-- `src/tokenizer.rs` `Token`: one constructor per `#[token]`/`#[regex]`
variant, plus the explicit `Error` variant emitted for unrecognized input. -/
inductive Token where
  | Error
  | PenUp
  | PenDown
  | Forward
  | Back
  | Left
  | Right
  | SetPenColor
  | Turn
  | SetHeading
  | SetX
  | SetY
  | Make
  | AddAssign
  | Value (s : String)
  | Variable (s : String)
  | XCOR
  | YCOR
  | HEADING
  | COLOR
  | If
  | While
  | Equal
  | NotEqual
  | LessThan
  | GreaterThan
  | And
  | Or
  | LParen
  | RParen
  | Add
  | Sub
  | Mul
  | Div
deriving DecidableEq

/-- The whitespace class of the skip regex `[ \t\n\f]+` in `src/tokenizer.rs`
(note: carriage return is not in it). -/
def isLogosWs (c : Char) : Bool :=
  c = ' ' || c = '\t' || c = '\n' || c = '\x0c'

/-- The character class `[^\s"]` used by the `Value`/`Variable` regexes:
neither regex whitespace nor a double quote.  (Only the ASCII members of the
regex class `\s` are modelled; no theorem below feeds the lexer non-ASCII
whitespace.) -/
def isAtomChar (c : Char) : Bool :=
  !(c = ' ' || c = '\t' || c = '\n' || c = '\r' || c = '\x0b' || c = '\x0c') && c ≠ '"'

/-- The fixed `#[token("…")]` literals of `src/tokenizer.rs`, keyword first.
No listed literal is a prefix of another, so at any input position at most one
of them matches and logos' longest-match rule never has to break a tie among
them. -/
def keywordTokens : List (List Char × Token) :=
  [ ("PENUP".data, .PenUp)
  , ("PENDOWN".data, .PenDown)
  , ("FORWARD".data, .Forward)
  , ("BACK".data, .Back)
  , ("LEFT".data, .Left)
  , ("RIGHT".data, .Right)
  , ("SETPENCOLOR".data, .SetPenColor)
  , ("TURN".data, .Turn)
  , ("SETHEADING".data, .SetHeading)
  , ("SETX".data, .SetX)
  , ("SETY".data, .SetY)
  , ("MAKE".data, .Make)
  , ("ADDASSIGN".data, .AddAssign)
  , ("XCOR".data, .XCOR)
  , ("YCOR".data, .YCOR)
  , ("HEADING".data, .HEADING)
  , ("COLOR".data, .COLOR)
  , ("IF".data, .If)
  , ("WHILE".data, .While)
  , ("EQ".data, .Equal)
  , ("NE".data, .NotEqual)
  , ("LT".data, .LessThan)
  , ("GT".data, .GreaterThan)
  , ("AND".data, .And)
  , ("OR".data, .Or)
  ]

/-- First keyword of `keywordTokens` matching a prefix of the input (unique
when it exists, see the comment on `keywordTokens`). -/
def matchKeyword (input : List Char) : Option (Nat × Token) :=
  keywordTokens.findSome? fun kt =>
    if kt.1.isPrefixOf input then some (kt.1.length, kt.2) else none

/-- One lexing step plus recursion, `fuel`-bounded (each step consumes at least
one character, so `input.length` fuel suffices).  This is the logos-generated
lexer of `src/tokenizer.rs` written as a first-character dispatch, which
coincides with logos' longest-match rule because the token patterns have
pairwise disjoint sets of possible first characters, except for `/` where the
comment skip `//.*\n` (length ≥ 3 when it matches) beats `Div` (length 1).
Unmatched characters are surfaced as `Token.Error` covering one character
each, as `tokenize` maps lexing errors to `Token::Error`; no theorem below
depends on how logos groups unmatchable input. -/
def tokenizeFuel : Nat → List Char → Nat → List (Token × Nat × Nat)
  | 0, _, _ => []
  | _ + 1, [], _ => []
  | fuel + 1, c :: cs, pos =>
    if isLogosWs c then
      -- skip regex `[ \t\n\f]+`, maximal munch
      let run := (c :: cs).takeWhile isLogosWs
      tokenizeFuel fuel ((c :: cs).dropWhile isLogosWs) (pos + run.length)
    else if c = '"' then
      -- `#[regex(r#""[^\s"]*"#, |lex| lex.slice()[1..].to_string())] Value`
      let content := cs.takeWhile isAtomChar
      (Token.Value (String.mk content), pos, pos + 1 + content.length) ::
        tokenizeFuel fuel (cs.dropWhile isAtomChar) (pos + 1 + content.length)
    else if c = ':' then
      -- `#[regex(r#":[^\s"]*"#, …)] Variable`
      let content := cs.takeWhile isAtomChar
      (Token.Variable (String.mk content), pos, pos + 1 + content.length) ::
        tokenizeFuel fuel (cs.dropWhile isAtomChar) (pos + 1 + content.length)
    else if c = '/' then
      match cs with
      | '/' :: cs2 =>
        -- candidate comment `//.*\n`: `.` matches anything but a newline, and
        -- the final `\n` is required, so the skip applies only when a newline
        -- follows; otherwise the longest match at this position is `Div`.
        match cs2.dropWhile (fun ch => ch ≠ '\n') with
        | '\n' :: rest =>
          tokenizeFuel fuel rest (pos + 2 + (cs2.takeWhile (fun ch => ch ≠ '\n')).length + 1)
        | _ =>
          (Token.Div, pos, pos + 1) :: tokenizeFuel fuel ('/' :: cs2) (pos + 1)
      | _ =>
        (Token.Div, pos, pos + 1) :: tokenizeFuel fuel cs (pos + 1)
    else if c = '[' then (Token.LParen, pos, pos + 1) :: tokenizeFuel fuel cs (pos + 1)
    else if c = ']' then (Token.RParen, pos, pos + 1) :: tokenizeFuel fuel cs (pos + 1)
    else if c = '+' then (Token.Add, pos, pos + 1) :: tokenizeFuel fuel cs (pos + 1)
    else if c = '-' then (Token.Sub, pos, pos + 1) :: tokenizeFuel fuel cs (pos + 1)
    else if c = '*' then (Token.Mul, pos, pos + 1) :: tokenizeFuel fuel cs (pos + 1)
    else
      match matchKeyword (c :: cs) with
      | some (len, tok) => (tok, pos, pos + len) :: tokenizeFuel fuel ((c :: cs).drop len) (pos + len)
      | none => (Token.Error, pos, pos + 1) :: tokenizeFuel fuel cs (pos + 1)

/-- `src/tokenizer.rs` `tokenize`: the full token/span sequence of a source
string. -/
def tokenize (content : String) : List (Token × Nat × Nat) :=
  tokenizeFuel content.data.length content.data 0

/-- `src/ast.rs` `Query`: the four turtle-state queries. -/
inductive Query where
  | XCOR
  | YCOR
  | HEADING
  | COLOR
deriving DecidableEq

mutual
/-- `src/ast.rs` `Expression` (f32 literals as `Rat`, see header). -/
inductive Expression where
  | Float (v : Rat)
  | Query (q : Query)
  | Variable (name : String)
  | String (s : String)
  | Math (m : Math)
  | Bool (c : Condition)

/-- `src/ast.rs` `Condition`. -/
inductive Condition where
  | Equal (a b : Expression)
  | NotEqual (a b : Expression)
  | LessThan (a b : Expression)
  | GreaterThan (a b : Expression)
  | And (a b : Condition)
  | Or (a b : Condition)

/-- `src/ast.rs` `Math`. -/
inductive Math where
  | Add (a b : Expression)
  | Sub (a b : Expression)
  | Mul (a b : Expression)
  | Div (a b : Expression)
end

mutual
/-- `src/ast.rs` `ASTNode`. -/
inductive ASTNode where
  | Procedure (p : Procedure)
  | ControlFlow (c : ControlFlow)

/-- `src/ast.rs` `Procedure`. -/
inductive Procedure where
  | PenUp
  | PenDown
  | Forward (e : Expression)
  | Back (e : Expression)
  | Left (e : Expression)
  | Right (e : Expression)
  | SetPenColor (e : Expression)
  | Turn (e : Expression)
  | SetHeading (e : Expression)
  | SetX (e : Expression)
  | SetY (e : Expression)
  | Make (a b : Expression)
  | AddAssign (a b : Expression)

/-- `src/ast.rs` `ControlFlow`. -/
inductive ControlFlow where
  | If (condition : Expression) (block : List ASTNode)
  | While (condition : Expression) (block : List ASTNode)
end

/-- `src/uncertain_bool.rs` `UncertainBool`. -/
inductive UncertainBool where
  | True
  | False
  | Unknown
deriving DecidableEq

/-- `src/uncertain_bool.rs` `UncertainBool::is_true`. -/
def UncertainBool.is_true : UncertainBool → Bool
  | .True => true
  | _ => false

/-- `src/uncertain_bool.rs` `UncertainBool::is_false`. -/
def UncertainBool.is_false : UncertainBool → Bool
  | .False => true
  | _ => false

/-- `src/uncertain_bool.rs` `is_option_eq`. -/
def is_option_eq {α : Type} [DecidableEq α] : Option α → Option α → UncertainBool
  | some a, some b => if a = b then .True else .False
  | none, none => .Unknown
  | _, _ => .False

/-- One successfully issued call to the external line-drawing primitive
`Image::draw_simple_line(x, y, direction: i32, length, color)`: its arguments
in order.  The image is observed as the list of these calls. -/
structure DrawCall where
  x : Rat
  y : Rat
  heading : Int
  dist : Rat
  color : Nat
deriving DecidableEq

/-- The external `unsvg` collaborator (out of this repository; specified by
interface in the spec, §6): canvas dimensions, `get_end_coordinates`, the
failure behaviour of `draw_simple_line`, and the palette size (`COLORS`,
whose entries are assumed pairwise distinct so a color is identified with its
index). -/
structure Unsvg where
  width : Nat
  height : Nat
  get_end_coordinates : Rat → Rat → Int → Rat → Rat × Rat
  /-- `none` = the draw call succeeds; `some msg` = it returns the error. -/
  draw_line_err : Rat → Rat → Int → Rat → Nat → Option String
  /-- Number of entries of the fixed `COLORS` palette. -/
  palette : Nat

/-- f32 addition on the `Rat` model.  Written via `mkRat` so that it is
kernel-reducible (`Rat.add` is `@[irreducible]` in the library); `radd_eq`
below proves it equal to ordinary rational addition. -/
def radd (a b : Rat) : Rat := mkRat (a.num * b.den + b.num * a.den) (a.den * b.den)

/-- f32 subtraction on the `Rat` model (kernel-reducible; see `rsub_eq`). -/
def rsub (a b : Rat) : Rat := mkRat (a.num * b.den - b.num * a.den) (a.den * b.den)

/-- f32 multiplication on the `Rat` model (kernel-reducible; see `rmul_eq`). -/
def rmul (a b : Rat) : Rat := mkRat (a.num * b.num) (a.den * b.den)

/-- Kernel-reducible rational inverse (see `rinv_eq`). -/
def rinv (a : Rat) : Rat :=
  match a.num with
  | .ofNat d => mkRat a.den d
  | .negSucc d => mkRat (-(a.den : Int)) (d + 1)

/-- f32 division on the `Rat` model (kernel-reducible; see `rdiv_eq`).  The
zero divisor never reaches it: `Expression::div` panics first. -/
def rdiv (a b : Rat) : Rat := rmul a (rinv b)

/-- Rust's saturating, toward-zero truncating `as i32` cast applied to an
`f32`, on the `Rat` model. -/
def f32ToI32 (q : Rat) : Int :=
  let t : Int := if 0 ≤ q then q.floor else -((-q).floor)
  max (-(2 ^ 31)) (min (2 ^ 31 - 1) t)

/-- Rust's saturating, toward-zero truncating `as usize` cast applied to an
`f32` (negative values saturate to 0), on the `Rat` model. -/
def f32ToUsize (q : Rat) : Nat :=
  if 0 ≤ q then (min (2 ^ 64 - 1) q.floor).toNat else 0

/-- `src/turtle.rs` `Turtle`: the image (as its draw-call log), the variable
environment (`HashMap` as an association list whose lookup takes the most
recent insertion), position, heading, pen flag and pen color (palette
index). -/
structure Turtle where
  drawn : List DrawCall
  /-- the source field `variables` (that spelling is a reserved token in Lean) -/
  vars : List (String × Expression)
  x : Rat
  y : Rat
  heading : Rat
  pen_down : Bool
  pen_color : Nat

/-- `src/turtle.rs` `Turtle::new`: center of the image, heading 0, pen up,
color `COLORS[7]`, no variables. -/
def Turtle.new (U : Unsvg) : Turtle :=
  { drawn := []
  , vars := []
  , x := rdiv (U.width : Rat) 2
  , y := rdiv (U.height : Rat) 2
  , heading := 0
  , pen_down := false
  , pen_color := 7 }

/-- `src/turtle.rs` `Turtle::pen_up` (named apart from the field). -/
def Turtle.penUp (t : Turtle) : Turtle := { t with pen_down := false }

/-- `src/turtle.rs` `Turtle::pen_down` (named apart from the field). -/
def Turtle.penDown (t : Turtle) : Turtle := { t with pen_down := true }

/-- Result of a drawing procedure: the Rust `Result<(), unsvg::Error>`
returned by `ASTNode::execute`, paired with the turtle (a `&mut` in Rust, so
its mutations survive an `Err`). -/
inductive Outcome where
  | ok (t : Turtle)
  | err (t : Turtle) (e : String)

/-- `src/turtle.rs` `Turtle::forward`: compute the end point from the pre-move
position/heading, draw (pre-move arguments) only when the pen is down — an
error from the draw call returns early, before the position update — then move
to the end point. -/
def Turtle.forward (U : Unsvg) (expr : Rat) (t : Turtle) : Outcome :=
  let h := f32ToI32 t.heading
  let e := U.get_end_coordinates t.x t.y h expr
  if t.pen_down then
    match U.draw_line_err t.x t.y h expr t.pen_color with
    | some msg => .err t msg
    | none =>
      .ok { t with drawn := ⟨t.x, t.y, h, expr, t.pen_color⟩ :: t.drawn, x := e.1, y := e.2 }
  else
    .ok { t with x := e.1, y := e.2 }

/-- `src/turtle.rs` `Turtle::left`: same as `forward` but the heading passed
to the primitive is `(self.heading - 90.0) as i32`. -/
def Turtle.left (U : Unsvg) (expr : Rat) (t : Turtle) : Outcome :=
  let h := f32ToI32 (rsub t.heading 90)
  let e := U.get_end_coordinates t.x t.y h expr
  if t.pen_down then
    match U.draw_line_err t.x t.y h expr t.pen_color with
    | some msg => .err t msg
    | none =>
      .ok { t with drawn := ⟨t.x, t.y, h, expr, t.pen_color⟩ :: t.drawn, x := e.1, y := e.2 }
  else
    .ok { t with x := e.1, y := e.2 }

/-- `src/turtle.rs` `Turtle::back`: literally `forward` on the negated
distance. -/
def Turtle.back (U : Unsvg) (expr : Rat) (t : Turtle) : Outcome :=
  t.forward U (-expr)

/-- `src/turtle.rs` `Turtle::right`: literally `left` on the negated
distance. -/
def Turtle.right (U : Unsvg) (expr : Rat) (t : Turtle) : Outcome :=
  t.left U (-expr)

/-- `src/turtle.rs` `Turtle::turn`: add to the heading, no wrapping. -/
def Turtle.turn (expr : Rat) (t : Turtle) : Turtle :=
  { t with heading := radd t.heading expr }

/-- `src/turtle.rs` `Turtle::set_heading`. -/
def Turtle.set_heading (expr : Rat) (t : Turtle) : Turtle :=
  { t with heading := expr }

/-- `src/turtle.rs` `Turtle::set_pen_color`: `COLORS[expr as usize]`, a panic
when the index is outside the palette. -/
def Turtle.set_pen_color (U : Unsvg) (expr : Rat) (t : Turtle) : M Turtle :=
  if f32ToUsize expr < U.palette then
    .ok { t with pen_color := f32ToUsize expr }
  else
    .error .panicF

/-- `src/turtle.rs` `Turtle::set_x`. -/
def Turtle.set_x (expr : Rat) (t : Turtle) : Turtle := { t with x := expr }

/-- `src/turtle.rs` `Turtle::set_y`. -/
def Turtle.set_y (expr : Rat) (t : Turtle) : Turtle := { t with y := expr }

/-- `src/turtle.rs` `Turtle::add_variable`: `HashMap::insert`, overwriting any
prior binding of the name. -/
def Turtle.add_variable (name : String) (value : Expression) (t : Turtle) : Turtle :=
  { t with vars := (name, value) :: t.vars.filter (fun p => p.1 ≠ name) }

/-- `src/turtle.rs` `Turtle::get_variable`, which panics when the name is
unbound; the panic happens at the call sites below, on `none`. -/
def Turtle.get_variable (name : String) (t : Turtle) : Option Expression :=
  t.vars.lookup name

/-- `src/turtle.rs` `Turtle::get_pen_color`: the palette index of the current
color, as a float. -/
def Turtle.get_pen_color (t : Turtle) : Rat := t.pen_color

/-- `impl std::ops::Add for Expression` in `src/ast.rs`: floats only, panic
otherwise. -/
def Expression.addOp : Expression → Expression → M Expression
  | .Float a, .Float b => .ok (.Float (radd a b))
  | _, _ => .error .panicF

/-- `impl std::ops::Sub for Expression` in `src/ast.rs`. -/
def Expression.subOp : Expression → Expression → M Expression
  | .Float a, .Float b => .ok (.Float (rsub a b))
  | _, _ => .error .panicF

/-- `impl std::ops::Mul for Expression` in `src/ast.rs`. -/
def Expression.mulOp : Expression → Expression → M Expression
  | .Float a, .Float b => .ok (.Float (rmul a b))
  | _, _ => .error .panicF

/-- `impl std::ops::Div for Expression` in `src/ast.rs`: floats only, and an
explicit panic on a zero divisor — never a special float value. -/
def Expression.divOp : Expression → Expression → M Expression
  | .Float a, .Float b => if b = 0 then .error .panicF else .ok (.Float (rdiv a b))
  | _, _ => .error .panicF

/-- The field read behind `Expression::to_float`'s `Query` arm. -/
def queryVal (q : Query) (t : Turtle) : Rat :=
  match q with
  | .XCOR => t.x
  | .YCOR => t.y
  | .COLOR => t.get_pen_color
  | .HEADING => t.heading

/-- One fuel level of the mutually recursive evaluation functions of
`src/ast.rs`: `Expression::to_float`, `Expression::to_string`,
`Expression::to_bool`, `Condition::eval`, `Expression::eval_math`.  An `M`
result of `ok none` is the Rust `Option::None` (the expression is not
coercible in that domain); `error panicF` is a Rust panic. -/
structure Evals where
  toF : Expression → Turtle → M (Option Rat)
  toS : Expression → Turtle → M (Option String)
  toB : Expression → Turtle → M (Option Bool)
  evC : Condition → Turtle → M Bool
  evM : Expression → Turtle → M Expression

/-- The evaluators with `fuel` levels of recursion available.  Every recursive
call in the source descends one level; level 0 is fuel exhaustion.  Apart from
that plumbing each body is a clause-by-clause translation of `src/ast.rs`. -/
def evalsAt (fuel : Nat) : Evals :=
  match fuel with
  | 0 =>
    ⟨fun _ _ => .error .fuelF, fun _ _ => .error .fuelF, fun _ _ => .error .fuelF,
     fun _ _ => .error .fuelF, fun _ _ => .error .fuelF⟩
  | fuel + 1 =>
    let prev := evalsAt fuel
    -- `Expression::to_float`
    let toF : Expression → Turtle → M (Option Rat) := fun e t =>
      match e with
      | .Float v => .ok (some v)
      | .Variable var =>
        -- `Some(turtle.get_variable(var).to_float(turtle)?)`; `get_variable`
        -- panics when the name is unbound
        match t.get_variable var with
        | none => .error .panicF
        | some bound => prev.toF bound t
      | .Math m =>
        -- `Some(self.eval_math(turtle).to_float(turtle)?)`
        do prev.toF (← prev.evM (.Math m) t) t
      | .Query q => .ok (some (queryVal q t))
      | _ => .ok none
    -- `Expression::to_string`
    let toS : Expression → Turtle → M (Option String) := fun e t =>
      match e with
      | .String v => .ok (some v)
      | .Variable var =>
        match t.get_variable var with
        | none => .error .panicF
        | some bound => prev.toS bound t
      | _ => .ok none
    -- `Expression::to_bool`
    let toB : Expression → Turtle → M (Option Bool) := fun e t =>
      match e with
      | .Bool c => do .ok (some (← prev.evC c t))
      | .Variable var =>
        match t.get_variable var with
        | none => .error .panicF
        | some bound => prev.toB bound t
      | _ => .ok none
    -- `Condition::eval`
    let evC : Condition → Turtle → M Bool := fun c t =>
      match c with
      | .Equal e1 e2 => do
        let float := is_option_eq (← prev.toF e1 t) (← prev.toF e2 t)
        let bool := is_option_eq (← prev.toB e1 t) (← prev.toB e2 t)
        let string := is_option_eq (← prev.toS e1 t) (← prev.toS e2 t)
        .ok (float.is_true || bool.is_true || string.is_true)
      | .NotEqual e1 e2 => do
        let float := is_option_eq (← prev.toF e1 t) (← prev.toF e2 t)
        let bool := is_option_eq (← prev.toB e1 t) (← prev.toB e2 t)
        let string := is_option_eq (← prev.toS e1 t) (← prev.toS e2 t)
        .ok (float.is_false && bool.is_false && string.is_false)
      | .LessThan e1 e2 => do
        match ← prev.toF e1 t, ← prev.toF e2 t with
        | some v1, some v2 => .ok (decide (v1 < v2))
        | _, _ => .error .panicF      -- `.expect("Can only compare floats")`
      | .GreaterThan e1 e2 => do
        match ← prev.toF e1 t, ← prev.toF e2 t with
        | some v1, some v2 => .ok (decide (v1 > v2))
        | _, _ => .error .panicF
      | .And c1 c2 => do
        let v1 ← prev.evC c1 t
        let v2 ← prev.evC c2 t
        .ok (v1 && v2)
      | .Or c1 c2 => do
        let v1 ← prev.evC c1 t
        let v2 ← prev.evC c2 t
        .ok (v1 || v2)
    -- `Expression::eval_math`
    let evM : Expression → Turtle → M Expression := fun e t =>
      match e with
      | .Math m =>
        match m with
        | .Add e1 e2 => do (← prev.evM e1 t).addOp (← prev.evM e2 t)
        | .Sub e1 e2 => do (← prev.evM e1 t).subOp (← prev.evM e2 t)
        | .Mul e1 e2 => do (← prev.evM e1 t).mulOp (← prev.evM e2 t)
        | .Div e1 e2 => do (← prev.evM e1 t).divOp (← prev.evM e2 t)
      | _ => do
        -- `Expression::Float(self.to_float(turtle).expect("Cannot perform math on this type"))`
        match ← prev.toF e t with
        | some v => .ok (.Float v)
        | none => .error .panicF
    ⟨toF, toS, toB, evC, evM⟩

/-- `Expression::to_float` at a fuel level. -/
def to_float (fuel : Nat) (e : Expression) (t : Turtle) : M (Option Rat) :=
  (evalsAt fuel).toF e t

/-- `Expression::to_string` at a fuel level. -/
def to_string (fuel : Nat) (e : Expression) (t : Turtle) : M (Option String) :=
  (evalsAt fuel).toS e t

/-- `Expression::to_bool` at a fuel level. -/
def to_bool (fuel : Nat) (e : Expression) (t : Turtle) : M (Option Bool) :=
  (evalsAt fuel).toB e t

/-- `Condition::eval` at a fuel level. -/
def condEval (fuel : Nat) (c : Condition) (t : Turtle) : M Bool :=
  (evalsAt fuel).evC c t

/-- `Expression::eval_math` at a fuel level. -/
def eval_math (fuel : Nat) (e : Expression) (t : Turtle) : M Expression :=
  (evalsAt fuel).evM e t

/-- The turtle carried out of a discarded child `Result` (`let _ =
instruction.execute(turtle);` keeps the mutations either way). -/
def Outcome.strip : Outcome → Turtle
  | .ok t => t
  | .err t _ => t

/-- `.expect("Invalid value")` applied to a coercion result: a panic on
`None`. -/
def expectVal {α : Type} (r : M (Option α)) : M α := do
  match ← r with
  | some v => .ok v
  | none => .error .panicF

/-- One fuel level of `ASTNode::execute` (`src/ast.rs`): the node executor,
the block walker of `If`/`While` (the `for` loop that discards child
`Result`s), and the `while` loop. -/
structure Execs where
  ex : ASTNode → Turtle → M Outcome
  blk : List ASTNode → Turtle → M Turtle
  whl : Expression → List ASTNode → Turtle → M Turtle

/-- `ASTNode::execute` and its loops with `fuel` levels available: child
statements of a block and each further `while` iteration run one level
deeper.  Each body is a clause-by-clause translation of `src/ast.rs`
lines 60–121. -/
def execsAt (U : Unsvg) (fuel : Nat) : Execs :=
  match fuel with
  | 0 =>
    ⟨fun _ _ => .error .fuelF, fun _ _ => .error .fuelF, fun _ _ _ => .error .fuelF⟩
  | fuel + 1 =>
    let prev := execsAt U fuel
    let ev := evalsAt (fuel + 1)
    -- the `for instruction in block { let _ = instruction.execute(turtle); }`
    -- walker: child errors are discarded, child panics propagate
    let blk : List ASTNode → Turtle → M Turtle := fun ns t =>
      ns.foldlM (fun acc n => do .ok (Outcome.strip (← prev.ex n acc))) t
    -- the `while cond { …block…; cond = condition.to_bool(turtle).expect(…) }`
    -- loop, entered with the guard already known true
    let whl : Expression → List ASTNode → Turtle → M Turtle := fun c b t => do
      let t' ← blk b t
      match ← ev.toB c t' with
      | some true => prev.whl c b t'
      | some false => .ok t'
      | none => .error .panicF
    let ex : ASTNode → Turtle → M Outcome := fun node t =>
      match node with
      | .Procedure p =>
        match p with
        | .PenUp => .ok (.ok t.penUp)
        | .PenDown => .ok (.ok t.penDown)
        | .Forward s => do .ok (t.forward U (← expectVal (ev.toF s t)))
        | .Back s => do .ok (t.back U (← expectVal (ev.toF s t)))
        | .Left s => do .ok (t.left U (← expectVal (ev.toF s t)))
        | .Right s => do .ok (t.right U (← expectVal (ev.toF s t)))
        | .Turn s => do .ok (.ok (t.turn (← expectVal (ev.toF s t))))
        | .SetHeading s => do .ok (.ok (t.set_heading (← expectVal (ev.toF s t))))
        | .SetPenColor s => do .ok (.ok (← t.set_pen_color U (← expectVal (ev.toF s t))))
        | .SetX s => do .ok (.ok (t.set_x (← expectVal (ev.toF s t))))
        | .SetY s => do .ok (.ok (t.set_y (← expectVal (ev.toF s t))))
        | .Make s s2 => do
          -- first argument must be a `Variable` node, else panic
          let name ← match s with
            | .Variable var => Except.ok var
            | _ => Except.error Fault.panicF
          -- math values are reduced to a literal, others stored unevaluated
          let val ← match s2 with
            | .Math _ => ev.evM s2 t
            | _ => Except.ok s2
          .ok (.ok (t.add_variable name val))
        | .AddAssign s s2 => do
          let name ← match s with
            | .Variable var => Except.ok var
            | _ => Except.error Fault.panicF
          -- `turtle.get_variable(name).to_float(turtle).expect("Variable not a float")`
          let curExpr ← match t.get_variable name with
            | some e => Except.ok e
            | none => Except.error Fault.panicF
          let cur ← expectVal (ev.toF curExpr t)
          let add ← expectVal (ev.toF s2 t)
          .ok (.ok (t.add_variable name (.Float (radd cur add))))
      | .ControlFlow flow =>
        match flow with
        | .If c b => do
          -- `.expect("Control flow condition must be able to evaluate into a boolean")`
          match ← ev.toB c t with
          | some true => do .ok (.ok (← blk b t))
          | some false => .ok (.ok t)
          | none => .error .panicF
        | .While c b => do
          match ← ev.toB c t with
          | some true => do .ok (.ok (← whl c b t))
          | some false => .ok (.ok t)
          | none => .error .panicF
    ⟨ex, blk, whl⟩

/-- `ASTNode::execute` at a fuel level. -/
def execute (U : Unsvg) (fuel : Nat) (n : ASTNode) (t : Turtle) : M Outcome :=
  (execsAt U fuel).ex n t

/-- The control-flow block walker at a fuel level. -/
def execBlock (U : Unsvg) (fuel : Nat) (ns : List ASTNode) (t : Turtle) : M Turtle :=
  (execsAt U fuel).blk ns t

/-- The `while` loop body at a fuel level (guard already known true). -/
def execWhile (U : Unsvg) (fuel : Nat) (c : Expression) (b : List ASTNode) (t : Turtle) :
    M Turtle :=
  (execsAt U fuel).whl c b t

/-- Modelled from the spec: the command-line entry point that runs a parsed
program is not under `src/` (only the library is), so, following §4.3/§7 of
the spec, top-level statements execute in order via `ASTNode::execute` and
the run halts on the first drawing error (RuntimeErrors — panics — abort
through the `M` layer on their own). -/
def runProgram (U : Unsvg) (fuel : Nat) : List ASTNode → Turtle → M Outcome
  | [], t => .ok (.ok t)
  | n :: rest, t => do
    match ← execute U fuel n t with
    | .ok t' => runProgram U fuel rest t'
    | .err t' e => .ok (.err t' e)

/-- Numeric value of a digit list. -/
def digitsVal (ds : List Char) : Nat :=
  ds.foldl (fun acc c => acc * 10 + (c.toNat - '0'.toNat)) 0

/-- The unsigned part of the `value` guard regex `^-?[0-9]*\.?[0-9]+$` of
`src/parser.rs`: digits, an optional single dot, then at least one digit; the
returned `Rat` is the value `str::parse::<f32>` yields (exact for the decimal
literals the theorems below use). -/
def decimalCore (cs : List Char) : Option Rat :=
  if cs.contains '.' then
    let before := cs.takeWhile (fun c => c ≠ '.')
    let after := (cs.dropWhile (fun c => c ≠ '.')).tail
    if before.all Char.isDigit && after.all Char.isDigit && !after.isEmpty
        && !after.contains '.' then
      some (mkRat (digitsVal (before ++ after)) (10 ^ after.length))
    else none
  else if !cs.isEmpty && cs.all Char.isDigit then some (digitsVal cs) else none

/-- The full `value` numeric guard of `src/parser.rs` (`select!` first arm):
`some` exactly when `Regex::new(r"^-?[0-9]*\.?[0-9]+$")` matches, carrying the
parsed float. -/
def valueNumeric (s : String) : Option Rat :=
  match s.data with
  | '-' :: rest => (decimalCore rest).map (fun q => -q)
  | cs => decimalCore cs

/-- The `value` string guard of `src/parser.rs` (`select!` second arm):
`Regex::new(r"[A-Za-z]+").is_match`, an unanchored search — the atom just has
to contain an ASCII letter. -/
def containsAlpha (s : String) : Bool :=
  s.data.any Char.isAlpha

/-- The recursive `arg` parser of `src/parser.rs` (`fuel`-bounded; each level
consumes at least one token so `tokens.length + 1` fuel is always enough):
a prefix arithmetic operator with exactly two recursive `arg`s, or a literal
`value` (numeric guard first, then the letter guard), or a variable reference,
or a query keyword — tried in that chumsky `or` order, which is deterministic
because the alternatives start with disjoint tokens. -/
def parseArg : Nat → List Token → Option (Expression × List Token)
  | 0, _ => none
  | _ + 1, [] => none
  | fuel + 1, tok :: rest =>
    match tok with
    | .Add => do
      let (e1, r1) ← parseArg fuel rest
      let (e2, r2) ← parseArg fuel r1
      some (.Math (.Add e1 e2), r2)
    | .Sub => do
      let (e1, r1) ← parseArg fuel rest
      let (e2, r2) ← parseArg fuel r1
      some (.Math (.Sub e1 e2), r2)
    | .Mul => do
      let (e1, r1) ← parseArg fuel rest
      let (e2, r2) ← parseArg fuel r1
      some (.Math (.Mul e1 e2), r2)
    | .Div => do
      let (e1, r1) ← parseArg fuel rest
      let (e2, r2) ← parseArg fuel r1
      some (.Math (.Div e1 e2), r2)
    | .Value s =>
      match valueNumeric s with
      | some q => some (.Float q, rest)
      | none => if containsAlpha s then some (.String s, rest) else none
    | .Variable s => some (.Variable s, rest)
    | .XCOR => some (.Query .XCOR, rest)
    | .YCOR => some (.Query .YCOR, rest)
    | .HEADING => some (.Query .HEADING, rest)
    | .COLOR => some (.Query .COLOR, rest)
    | _ => none

/-- The recursive `condition` parser of `src/parser.rs`: a relational operator
with two `arg`s, or a logical operator with two conditions. -/
def parseCond : Nat → List Token → Option (Condition × List Token)
  | 0, _ => none
  | _ + 1, [] => none
  | fuel + 1, tok :: rest =>
    match tok with
    | .Equal => do
      let (e1, r1) ← parseArg fuel rest
      let (e2, r2) ← parseArg fuel r1
      some (.Equal e1 e2, r2)
    | .NotEqual => do
      let (e1, r1) ← parseArg fuel rest
      let (e2, r2) ← parseArg fuel r1
      some (.NotEqual e1 e2, r2)
    | .LessThan => do
      let (e1, r1) ← parseArg fuel rest
      let (e2, r2) ← parseArg fuel r1
      some (.LessThan e1 e2, r2)
    | .GreaterThan => do
      let (e1, r1) ← parseArg fuel rest
      let (e2, r2) ← parseArg fuel r1
      some (.GreaterThan e1 e2, r2)
    | .And => do
      let (c1, r1) ← parseCond fuel rest
      let (c2, r2) ← parseCond fuel r1
      some (.And c1 c2, r2)
    | .Or => do
      let (c1, r1) ← parseCond fuel rest
      let (c2, r2) ← parseCond fuel r1
      some (.Or c1 c2, r2)
    | _ => none

/-- The `no_arg` lookahead of `src/parser.rs`
(`arg.clone().not().rewind().ignored().or(end())`): succeeds — consuming
nothing — exactly when no `arg` can be parsed at this point (which subsumes
end of input). -/
def noArg (toks : List Token) : Bool :=
  (parseArg (toks.length + 1) toks).isNone

/-- The guard of a control-flow node (`condition.map(Bool).or(variable)`). -/
def condOrVar (toks : List Token) : Option (Expression × List Token) :=
  match parseCond (toks.length + 1) toks with
  | some (c, r) => some (.Bool c, r)
  | none =>
    match toks with
    | .Variable s :: r => some (.Variable s, r)
    | _ => none

/-- One fuel level of the statement grammar of `src/parser.rs`: a single
`procedure`-or-`control_flow` node, and the greedy `repeated()` statement
sequence. -/
structure Parsers where
  stmt : List Token → Option (ASTNode × List Token)
  many : List Token → List ASTNode × List Token

/-- The statement grammar with `fuel` levels (each statement consumes at least
one token, so `tokens.length + 1` levels always suffice).  Clause by clause
from `src/parser.rs`: zero-argument procedures followed by the `no_arg`
lookahead; one-argument procedures with one `arg` then `no_arg`; `MAKE` with
an `arg` that must turn out to be a bare `String` atom (reinterpreted as the
variable name) and an `arg`-or-condition value; `ADDASSIGN` likewise with two
`arg`s; `IF`/`WHILE` with a condition-or-variable guard and a bracketed,
non-empty body. -/
def parsersAt : Nat → Parsers
  | 0 => ⟨fun _ => none, fun ts => ([], ts)⟩
  | fuel + 1 =>
    let prev := parsersAt fuel
    -- `repeated().at_least(1).delimited_by(just(LParen), just(RParen))`
    let blockOf : List Token → Option (List ASTNode × List Token) := fun toks =>
      match toks with
      | .LParen :: r =>
        match prev.many r with
        | ([], _) => none
        | (items, .RParen :: r3) => some (items, r3)
        | (_, _) => none
      | _ => none
    let stmt : List Token → Option (ASTNode × List Token) := fun toks =>
      match toks with
      | .PenUp :: rest => if noArg rest then some (.Procedure .PenUp, rest) else none
      | .PenDown :: rest => if noArg rest then some (.Procedure .PenDown, rest) else none
      | .Forward :: rest => do
        let (e, r) ← parseArg (rest.length + 1) rest
        if noArg r then some (.Procedure (.Forward e), r) else none
      | .Back :: rest => do
        let (e, r) ← parseArg (rest.length + 1) rest
        if noArg r then some (.Procedure (.Back e), r) else none
      | .Left :: rest => do
        let (e, r) ← parseArg (rest.length + 1) rest
        if noArg r then some (.Procedure (.Left e), r) else none
      | .Right :: rest => do
        let (e, r) ← parseArg (rest.length + 1) rest
        if noArg r then some (.Procedure (.Right e), r) else none
      | .Turn :: rest => do
        let (e, r) ← parseArg (rest.length + 1) rest
        if noArg r then some (.Procedure (.Turn e), r) else none
      | .SetHeading :: rest => do
        let (e, r) ← parseArg (rest.length + 1) rest
        if noArg r then some (.Procedure (.SetHeading e), r) else none
      | .SetX :: rest => do
        let (e, r) ← parseArg (rest.length + 1) rest
        if noArg r then some (.Procedure (.SetX e), r) else none
      | .SetY :: rest => do
        let (e, r) ← parseArg (rest.length + 1) rest
        if noArg r then some (.Procedure (.SetY e), r) else none
      | .SetPenColor :: rest => do
        let (e, r) ← parseArg (rest.length + 1) rest
        if noArg r then some (.Procedure (.SetPenColor e), r) else none
      | .Make :: rest => do
        let (a1, r1) ← parseArg (rest.length + 1) rest
        let (val, r2) ←
          match parseArg (r1.length + 1) r1 with
          | some er => some er
          | none => (parseCond (r1.length + 1) r1).map (fun cr => (Expression.Bool cr.1, cr.2))
        match a1 with
        | .String s =>
          if noArg r2 then some (.Procedure (.Make (.Variable s) val), r2) else none
        | _ => none
      | .AddAssign :: rest => do
        let (a1, r1) ← parseArg (rest.length + 1) rest
        let (val, r2) ← parseArg (r1.length + 1) r1
        match a1 with
        | .String s =>
          if noArg r2 then some (.Procedure (.AddAssign (.Variable s) val), r2) else none
        | _ => none
      | .If :: rest => do
        let (cond, r1) ← condOrVar rest
        let (body, r2) ← blockOf r1
        some (.ControlFlow (.If cond body), r2)
      | .While :: rest => do
        let (cond, r1) ← condOrVar rest
        let (body, r2) ← blockOf r1
        some (.ControlFlow (.While cond body), r2)
      | _ => none
    let many : List Token → List ASTNode × List Token := fun toks =>
      match stmt toks with
      | some (n, r) =>
        let (ns, r2) := prev.many r
        (n :: ns, r2)
      | none => ([], toks)
    ⟨stmt, many⟩

/-- `src/parser.rs` `parse_content`: tokenize, then the top-level
`(procedure.or(control_flow)).repeated().at_least(1)` grammar; `none` is a
parse failure, and the unconsumed remainder is returned alongside the nodes
(the theorems below always assert it is empty). -/
def parse_content (content : String) : Option (List ASTNode × List Token) :=
  let toks := (tokenize content).map (fun x => x.1)
  match (parsersAt (toks.length + 1)).many toks with
  | ([], _) => none
  | (ns, r) => some (ns, r)

/-- The single draw/move step shared in shape by `Turtle::forward` and
`Turtle::left`, abstracted over the already-cast heading passed to the
drawing primitive (used to state that `left` is the heading-offset variant of
`forward`). -/
def Turtle.moveAlong (U : Unsvg) (h : Int) (expr : Rat) (t : Turtle) : Outcome :=
  let e := U.get_end_coordinates t.x t.y h expr
  if t.pen_down then
    match U.draw_line_err t.x t.y h expr t.pen_color with
    | some msg => .err t msg
    | none =>
      .ok { t with drawn := ⟨t.x, t.y, h, expr, t.pen_color⟩ :: t.drawn, x := e.1, y := e.2 }
  else
    .ok { t with x := e.1, y := e.2 }

/-- A concrete instance of the external collaborator, for witnesses and
counterexamples: a 200×200 canvas, every draw call succeeding, 16 palette
entries, and, at heading 0, a move of `d` units decreasing `y` by `d` — the
heading-0 behaviour pinned by the doc example of `src/ast.rs` (two
`FORWARD 10` from `y = 50` end at `y = 30`).  Other headings keep the
position; no theorem instantiated at this instance exercises them. -/
def unsvgT : Unsvg :=
  { width := 200
  , height := 200
  , get_end_coordinates := fun x y h d => if h = 0 then (x, rsub y d) else (x, y)
  , draw_line_err := fun _ _ _ _ _ => none
  , palette := 16 }

/-- A variant of `unsvgT` whose draw calls all fail, to exhibit drawing
errors. -/
def unsvgErr : Unsvg :=
  { unsvgT with draw_line_err := fun _ _ _ _ _ => some "err" }

theorem radd_eq (a b : Rat) : radd a b = a + b := by
  rw [Rat.add_def']
  rfl

theorem rsub_eq (a b : Rat) : rsub a b = a - b := by
  rw [Rat.sub_def']
  rfl

theorem rmul_eq (a b : Rat) : rmul a b = a * b := by
  rw [Rat.mul_def, Rat.normalize_eq_mkRat]
  rfl

theorem rinv_eq (a : Rat) : rinv a = a.inv := by
  rw [Rat.inv_def]
  unfold rinv Rat.divInt
  cases h : a.num with
  | ofNat d => simp
  | negSucc d => simp [Rat.normalize_eq_mkRat]

theorem rdiv_eq (a b : Rat) : rdiv a b = a / b := by
  rw [Rat.div_def, ← rmul_eq, ← rinv_eq]
  rfl

theorem mbind_ok {α β : Type} (a : α) (k : α → M β) : (Except.ok a >>= k) = k a := rfl

theorem mbind_error {α β : Type} (f : Fault) (k : α → M β) :
    ((Except.error f : M α) >>= k) = .error f := rfl

/-- C8: a freshly created turtle sits at the canvas center `(width/2,
height/2)`, has heading 0, the pen up, the default palette color index 7, and
an empty variable environment. -/
theorem c8_new_turtle (U : Unsvg) :
    (Turtle.new U).x = (U.width : Rat) / 2 ∧ (Turtle.new U).y = (U.height : Rat) / 2
    ∧ (Turtle.new U).heading = 0 ∧ (Turtle.new U).pen_down = false
    ∧ (Turtle.new U).pen_color = 7 ∧ (Turtle.new U).vars = [] := by
  refine ⟨?_, ?_, rfl, rfl, rfl, rfl⟩
  · show rdiv (U.width : Rat) 2 = (U.width : Rat) / 2
    exact rdiv_eq _ _
  · show rdiv (U.height : Rat) 2 = (U.height : Rat) / 2
    exact rdiv_eq _ _

/-- C7: `Back`/`Right` are literally `Forward`/`Left` on the negated
distance, and `Forward`/`Left` are the same single draw/move step, `Left`
with the effective heading rotated by −90° from the current heading. -/
theorem c7_back_right_are_negated (U : Unsvg) (d : Rat) (t : Turtle) :
    t.back U d = t.forward U (-d)
    ∧ t.right U d = t.left U (-d)
    ∧ t.forward U d = t.moveAlong U (f32ToI32 t.heading) d
    ∧ t.left U d = t.moveAlong U (f32ToI32 (t.heading - 90)) d := by
  refine ⟨rfl, rfl, rfl, ?_⟩
  rw [← rsub_eq]
  rfl

theorem is_option_eq_true_iff {α : Type} [DecidableEq α] (a b : Option α) :
    (is_option_eq a b).is_true = true ↔ ∃ v, a = some v ∧ b = some v := by
  cases a <;> cases b <;> simp [is_option_eq, UncertainBool.is_true]
  case some.some x y =>
    by_cases h : x = y
    · simp [h, UncertainBool.is_true]
    · simp [h, UncertainBool.is_true]
      exact fun hh => h hh.symm

/-- C1 (amended): with all six coercions of the two operands given, `Equal`
evaluates to true exactly when some domain finds both operands coercible and
equal; `NotEqual` evaluates to the conjunction of the three domains' definite
"unequal" verdicts, where a domain gives that verdict when both operands
coerce to different values or exactly one coerces — a domain in which
neither operand coerces (`is_option_eq = Unknown`) forces `NotEqual` to
false; and two operands coercible only in different domains make both
`Equal` and `NotEqual` false. -/
theorem c1_equality_domains (fuel : Nat) (e1 e2 : Expression) (t : Turtle)
    (f1 f2 : Option Rat) (b1 b2 : Option Bool) (s1 s2 : Option String)
    (hf1 : to_float fuel e1 t = .ok f1) (hf2 : to_float fuel e2 t = .ok f2)
    (hb1 : to_bool fuel e1 t = .ok b1) (hb2 : to_bool fuel e2 t = .ok b2)
    (hs1 : to_string fuel e1 t = .ok s1) (hs2 : to_string fuel e2 t = .ok s2) :
    condEval (fuel + 1) (.Equal e1 e2) t =
      .ok ((is_option_eq f1 f2).is_true || (is_option_eq b1 b2).is_true
            || (is_option_eq s1 s2).is_true)
    ∧ (condEval (fuel + 1) (.Equal e1 e2) t = .ok true ↔
        (∃ v, f1 = some v ∧ f2 = some v) ∨ (∃ v, b1 = some v ∧ b2 = some v)
          ∨ (∃ v, s1 = some v ∧ s2 = some v))
    ∧ condEval (fuel + 1) (.NotEqual e1 e2) t =
      .ok ((is_option_eq f1 f2).is_false && (is_option_eq b1 b2).is_false
            && (is_option_eq s1 s2).is_false)
    ∧ (f1.isSome = true → f2 = none → b1 = none → b2 = none → s1 = none →
        s2.isSome = true →
        condEval (fuel + 1) (.Equal e1 e2) t = .ok false
        ∧ condEval (fuel + 1) (.NotEqual e1 e2) t = .ok false) := by
  simp only [to_float, to_bool, to_string] at hf1 hf2 hb1 hb2 hs1 hs2
  have hEq : condEval (fuel + 1) (.Equal e1 e2) t =
      .ok ((is_option_eq f1 f2).is_true || (is_option_eq b1 b2).is_true
            || (is_option_eq s1 s2).is_true) := by
    simp only [condEval, evalsAt]
    rw [hf1, hf2, hb1, hb2, hs1, hs2]
    rfl
  have hNe : condEval (fuel + 1) (.NotEqual e1 e2) t =
      .ok ((is_option_eq f1 f2).is_false && (is_option_eq b1 b2).is_false
            && (is_option_eq s1 s2).is_false) := by
    simp only [condEval, evalsAt]
    rw [hf1, hf2, hb1, hb2, hs1, hs2]
    rfl
  refine ⟨hEq, ?_, hNe, ?_⟩
  · rw [hEq]
    simp only [Except.ok.injEq, Bool.or_eq_true, is_option_eq_true_iff]
    rw [or_assoc]
  · intro h1 h2 h3 h4 h5 h6
    obtain ⟨v1, hv1⟩ := Option.isSome_iff_exists.mp h1
    obtain ⟨v2, hv2⟩ := Option.isSome_iff_exists.mp h6
    subst hv1 hv2 h2 h3 h4 h5
    rw [hEq, hNe]
    simp [is_option_eq, UncertainBool.is_true, UncertainBool.is_false]

/-- C1 counterexample: for the two numeric literals 1 and 2, the numeric
domain is the only one in which both operands coerce and it finds them
unequal, so the claim as stated makes `NotEqual` true — but the code
evaluates it to false (the boolean and string domains are
`(None, None) = Unknown`, whose `is_false()` fails the conjunction). -/
theorem c1_counterexample :
    to_float 1 (.Float 1) (Turtle.new unsvgT) = .ok (some 1)
    ∧ to_float 1 (.Float 2) (Turtle.new unsvgT) = .ok (some 2)
    ∧ (1 : Rat) ≠ 2
    ∧ to_bool 1 (.Float 1) (Turtle.new unsvgT) = .ok none
    ∧ to_bool 1 (.Float 2) (Turtle.new unsvgT) = .ok none
    ∧ to_string 1 (.Float 1) (Turtle.new unsvgT) = .ok none
    ∧ to_string 1 (.Float 2) (Turtle.new unsvgT) = .ok none
    ∧ condEval 2 (.NotEqual (.Float 1) (.Float 2)) (Turtle.new unsvgT) = .ok false := by
  exact ⟨rfl, rfl, by decide, rfl, rfl, rfl, rfl, rfl⟩

/-- C1 witness: the amended theorem applied to a string literal vs. a numeric
literal — operands coercible only in different domains — makes both `Equal`
and `NotEqual` false. -/
theorem c1_witness :
    condEval 2 (.Equal (.Float 1) (.String "a")) (Turtle.new unsvgT) = .ok false
    ∧ condEval 2 (.NotEqual (.Float 1) (.String "a")) (Turtle.new unsvgT) = .ok false := by
  exact (c1_equality_domains 1 (.Float 1) (.String "a") (Turtle.new unsvgT)
    (some 1) none none none none (some "a") rfl rfl rfl rfl rfl rfl).2.2.2
    rfl rfl rfl rfl rfl rfl

theorem mmap_ok (m : M Turtle) :
    (do let t' ← m; (.ok (.ok t') : M Outcome)) = m.map Outcome.ok := by
  cases m <;> rfl

/-- C2: when an `If` guard evaluates true, the block runs with every child
statement's drawing error discarded — the `If` node's own result is the
mapped-success of the block walk, so no child error leaves the node — and a
child that returns a drawing error leaves execution to continue with the next
statement of the block from the child's mutated turtle. -/
theorem c2_if_swallows_child_errors (U : Unsvg) (fuel : Nat) (c : Expression)
    (b : List ASTNode) (t : Turtle) (h : to_bool (fuel + 1) c t = .ok (some true)) :
    execute U (fuel + 1) (.ControlFlow (.If c b)) t =
      (execBlock U (fuel + 1) b t).map Outcome.ok
    ∧ (∀ n rest t0 t1 e, execute U fuel n t0 = .ok (.err t1 e) →
        execBlock U (fuel + 1) (n :: rest) t0 = execBlock U (fuel + 1) rest t1) := by
  simp only [to_bool] at h
  constructor
  · simp only [execute, execBlock, execsAt]
    rw [h, mbind_ok]
    exact mmap_ok _
  · intro n rest t0 t1 e hchild
    simp only [execute] at hchild
    simp only [execBlock, execsAt, List.foldlM_cons]
    rw [hchild, mbind_ok]
    rfl

/-- C2 witness: with a collaborator whose draw calls fail, a pen-down
`FORWARD` child inside a true-guarded `If` raises a drawing error, yet the
`If` node returns the mapped-success of its block walk and the walk continues
past the failing child. -/
theorem c2_witness :
    execute unsvgErr 4 (.ControlFlow (.If (.Bool (.Equal (.Float 1) (.Float 1)))
        [.Procedure (.Forward (.Float 1)), .Procedure .PenUp]))
        ((Turtle.new unsvgErr).penDown) =
      (execBlock unsvgErr 4 [.Procedure (.Forward (.Float 1)), .Procedure .PenUp]
        ((Turtle.new unsvgErr).penDown)).map Outcome.ok
    ∧ execBlock unsvgErr 4 [.Procedure (.Forward (.Float 1)), .Procedure .PenUp]
        ((Turtle.new unsvgErr).penDown) =
      execBlock unsvgErr 4 [.Procedure .PenUp] ((Turtle.new unsvgErr).penDown) := by
  have h := c2_if_swallows_child_errors unsvgErr 3 (.Bool (.Equal (.Float 1) (.Float 1)))
    [.Procedure (.Forward (.Float 1)), .Procedure .PenUp] ((Turtle.new unsvgErr).penDown) rfl
  exact ⟨h.1, h.2 _ _ _ _ "err" rfl⟩

/-- C3: a `While` node whose guard is false on first evaluation executes its
block zero times and leaves the turtle unchanged; when the guard is true the
node's result is the mapped-success of the loop, each loop pass runs the full
block and then re-evaluates the guard from the block's resulting state
(continuing exactly when it is true again), and a pass after which the guard
is false ends the loop with that state. -/
theorem c3_while_semantics (U : Unsvg) (fuel : Nat) (c : Expression)
    (b : List ASTNode) (t : Turtle) :
    (to_bool (fuel + 1) c t = .ok (some false) →
      execute U (fuel + 1) (.ControlFlow (.While c b)) t = .ok (.ok t))
    ∧ (to_bool (fuel + 1) c t = .ok (some true) →
      execute U (fuel + 1) (.ControlFlow (.While c b)) t =
        (execWhile U (fuel + 1) c b t).map Outcome.ok)
    ∧ (∀ t', execBlock U (fuel + 1) b t = .ok t' →
        execWhile U (fuel + 1) c b t =
          match to_bool (fuel + 1) c t' with
          | .ok (some true) => execWhile U fuel c b t'
          | .ok (some false) => .ok t'
          | .ok none => .error .panicF
          | .error f => .error f)
    ∧ (∀ t', to_bool (fuel + 1) c t = .ok (some true) →
        execBlock U (fuel + 1) b t = .ok t' →
        to_bool (fuel + 1) c t' = .ok (some false) →
        execute U (fuel + 1) (.ControlFlow (.While c b)) t = .ok (.ok t')) := by
  have hfalse : to_bool (fuel + 1) c t = .ok (some false) →
      execute U (fuel + 1) (.ControlFlow (.While c b)) t = .ok (.ok t) := by
    intro h
    simp only [to_bool] at h
    simp only [execute, execsAt]
    rw [h, mbind_ok]
  have htrue : to_bool (fuel + 1) c t = .ok (some true) →
      execute U (fuel + 1) (.ControlFlow (.While c b)) t =
        (execWhile U (fuel + 1) c b t).map Outcome.ok := by
    intro h
    simp only [to_bool] at h
    simp only [execute, execWhile, execsAt]
    rw [h, mbind_ok]
    exact mmap_ok _
  have hunroll : ∀ t', execBlock U (fuel + 1) b t = .ok t' →
      execWhile U (fuel + 1) c b t =
        match to_bool (fuel + 1) c t' with
        | .ok (some true) => execWhile U fuel c b t'
        | .ok (some false) => .ok t'
        | .ok none => .error .panicF
        | .error f => .error f := by
    intro t' hblk
    simp only [execBlock, execsAt] at hblk
    simp only [execWhile, execsAt, to_bool]
    rw [hblk, mbind_ok]
    cases hb : (evalsAt (fuel + 1)).toB c t' with
    | error f => rfl
    | ok r =>
      cases r with
      | none => rfl
      | some bv => cases bv <;> rfl
  refine ⟨hfalse, htrue, hunroll, ?_⟩
  intro t' h1 h2 h3
  rw [htrue h1, hunroll t' h2, h3]
  rfl

/-- C3 witness: a guard false at first evaluation leaves the turtle untouched
(zero block executions), and a loop whose guard turns false after one pass
ends with the pass's state (here `i` goes 0 to 1 and `LT :i "1` turns
false). -/
theorem c3_witness :
    execute unsvgT 4 (.ControlFlow (.While (.Bool (.LessThan (.Float 5) (.Float 3)))
        [.Procedure .PenDown])) (Turtle.new unsvgT) = .ok (.ok (Turtle.new unsvgT))
    ∧ execute unsvgT 4 (.ControlFlow (.While (.Bool (.LessThan (.Variable "i") (.Float 1)))
        [.Procedure (.AddAssign (.Variable "i") (.Float 1))]))
        ((Turtle.new unsvgT).add_variable "i" (.Float 0)) =
      .ok (.ok (((Turtle.new unsvgT).add_variable "i" (.Float 0)).add_variable "i"
        (.Float 1))) := by
  refine ⟨(c3_while_semantics unsvgT 3 _ _ _).1 rfl, ?_⟩
  exact (c3_while_semantics unsvgT 3 _ _ _).2.2.2
    (((Turtle.new unsvgT).add_variable "i" (.Float 0)).add_variable "i" (.Float 1))
    rfl rfl rfl

theorem mbind_ok_outcome (m : M Turtle) (o : Outcome)
    (h : (m >>= fun t' => (.ok (.ok t') : M Outcome)) = .ok o) : ∃ t'', o = .ok t'' := by
  cases m with
  | error f => exact Except.noConfusion (mbind_error f _ ▸ h)
  | ok a =>
    rw [mbind_ok] at h
    exact ⟨a, (Except.ok.inj h).symm⟩

/-- C10: inside a `While` block too, a child statement's drawing error is
discarded and the walk continues with the next statement from the child's
mutated state; after the block the guard is re-evaluated from the resulting
state; and a control-flow node (`If` or `While`) that completes its execution
at all completes with success — a child error never becomes the node's
result. -/
theorem c10_controlflow_success (U : Unsvg) (fuel : Nat) (c : Expression)
    (b : List ASTNode) (t : Turtle) :
    (∀ n rest t0 t1 e, execute U fuel n t0 = .ok (.err t1 e) →
        execBlock U (fuel + 1) (n :: rest) t0 = execBlock U (fuel + 1) rest t1)
    ∧ (∀ t', execBlock U (fuel + 1) b t = .ok t' →
        execWhile U (fuel + 1) c b t =
          match to_bool (fuel + 1) c t' with
          | .ok (some true) => execWhile U fuel c b t'
          | .ok (some false) => .ok t'
          | .ok none => .error .panicF
          | .error f => .error f)
    ∧ (∀ o, execute U (fuel + 1) (.ControlFlow (.If c b)) t = .ok o → ∃ t'', o = .ok t'')
    ∧ (∀ o, execute U (fuel + 1) (.ControlFlow (.While c b)) t = .ok o →
        ∃ t'', o = .ok t'') := by
  refine ⟨?_, ?_, ?_, ?_⟩
  · intro n rest t0 t1 e hchild
    simp only [execute] at hchild
    simp only [execBlock, execsAt, List.foldlM_cons]
    rw [hchild, mbind_ok]
    rfl
  · intro t' hblk
    simp only [execBlock, execsAt] at hblk
    simp only [execWhile, execsAt, to_bool]
    rw [hblk, mbind_ok]
    cases hb : (evalsAt (fuel + 1)).toB c t' with
    | error f => rfl
    | ok r =>
      cases r with
      | none => rfl
      | some bv => cases bv <;> rfl
  · intro o h
    simp only [execute, execsAt] at h
    cases hb : (evalsAt (fuel + 1)).toB c t with
    | error f =>
      rw [hb, mbind_error] at h
      exact Except.noConfusion h
    | ok r =>
      rw [hb, mbind_ok] at h
      cases r with
      | none => exact Except.noConfusion h
      | some bv =>
        cases bv with
        | false => exact ⟨t, (Except.ok.inj h).symm⟩
        | true => exact mbind_ok_outcome _ o h
  · intro o h
    simp only [execute, execsAt] at h
    cases hb : (evalsAt (fuel + 1)).toB c t with
    | error f =>
      rw [hb, mbind_error] at h
      exact Except.noConfusion h
    | ok r =>
      rw [hb, mbind_ok] at h
      cases r with
      | none => exact Except.noConfusion h
      | some bv =>
        cases bv with
        | false => exact ⟨t, (Except.ok.inj h).symm⟩
        | true => exact mbind_ok_outcome _ o h

/-- C10 witness: the block-walk continuation applied past a failing draw
child, and the success-only shape of a completed `While` execution. -/
theorem c10_witness :
    execBlock unsvgErr 4 [.Procedure (.Forward (.Float 1)), .Procedure .PenUp]
        ((Turtle.new unsvgErr).penDown) =
      execBlock unsvgErr 4 [.Procedure .PenUp] ((Turtle.new unsvgErr).penDown)
    ∧ (∃ t'', Outcome.ok (Turtle.new unsvgErr) = Outcome.ok t'') := by
  refine ⟨(c10_controlflow_success unsvgErr 3 (.Bool (.Equal (.Float 1) (.Float 1))) []
    (Turtle.new unsvgErr)).1 _ _ _ _ "err" rfl, ?_⟩
  exact (c10_controlflow_success unsvgErr 3 (.Bool (.LessThan (.Float 5) (.Float 3)))
    [.Procedure .PenDown] (Turtle.new unsvgErr)).2.2.2 (.ok (Turtle.new unsvgErr)) rfl

theorem f32ToI32_zero : f32ToI32 0 = 0 := rfl

/-- C4: `forward` issues exactly one draw call — with the pre-move position,
the pre-move (cast) heading, the signed distance and the pen color — when and
only when the pen is down, then moves the turtle to the primitive's end
coordinate; and on the parsed source `PENDOWN FORWARD "100`, against any
collaborator that moves heading-0 travel straight up and accepts the draw,
the pen ends down, the draw-call log is exactly one call of distance 100 from
the canvas center at heading 0, and the turtle ends 100 units above the
center. -/
theorem c4_forward_scenario (U : Unsvg) (d : Rat) (t : Turtle) :
    (t.pen_down = true →
      U.draw_line_err t.x t.y (f32ToI32 t.heading) d t.pen_color = none →
      t.forward U d = .ok { t with
        drawn := ⟨t.x, t.y, f32ToI32 t.heading, d, t.pen_color⟩ :: t.drawn
        x := (U.get_end_coordinates t.x t.y (f32ToI32 t.heading) d).1
        y := (U.get_end_coordinates t.x t.y (f32ToI32 t.heading) d).2 })
    ∧ (t.pen_down = false →
      t.forward U d = .ok { t with
        x := (U.get_end_coordinates t.x t.y (f32ToI32 t.heading) d).1
        y := (U.get_end_coordinates t.x t.y (f32ToI32 t.heading) d).2 })
    ∧ parse_content "PENDOWN FORWARD \"100" =
        some ([.Procedure .PenDown, .Procedure (.Forward (.Float 100))], [])
    ∧ ((∀ x y dd, U.get_end_coordinates x y 0 dd = (x, y - dd)) →
       (∀ x y dd col, U.draw_line_err x y 0 dd col = none) →
       runProgram U 5 [.Procedure .PenDown, .Procedure (.Forward (.Float 100))]
         (Turtle.new U) =
       .ok (.ok { drawn := [⟨(U.width : Rat) / 2, (U.height : Rat) / 2, 0, 100, 7⟩]
                , vars := []
                , x := (U.width : Rat) / 2
                , y := (U.height : Rat) / 2 - 100
                , heading := 0, pen_down := true, pen_color := 7 })) := by
  refine ⟨?_, ?_, rfl, ?_⟩
  · intro hpen hdraw1
    simp only [Turtle.forward]
    rw [hpen, hdraw1]
    rfl
  · intro hpen
    simp only [Turtle.forward]
    rw [hpen]
    rfl
  · intro hget hdraw
    have step : runProgram U 5 [.Procedure .PenDown, .Procedure (.Forward (.Float 100))]
        (Turtle.new U) =
        match Turtle.forward U 100 ((Turtle.new U).penDown) with
        | .ok t' => .ok (.ok t')
        | .err t' e => .ok (.err t' e) := rfl
    rw [step]
    have hfwd : Turtle.forward U 100 ((Turtle.new U).penDown) =
        .ok { drawn := [⟨(U.width : Rat) / 2, (U.height : Rat) / 2, 0, 100, 7⟩]
            , vars := [], x := (U.width : Rat) / 2, y := (U.height : Rat) / 2 - 100
            , heading := 0, pen_down := true, pen_color := 7 } := by
      simp only [Turtle.forward, Turtle.penDown, Turtle.new, f32ToI32_zero]
      rw [hdraw, hget]
      simp [rdiv_eq]
    rw [hfwd]

/-- C4 witness: the forward/draw theorem applied to the concrete collaborator
`unsvgT` (200×200 canvas): pen down from the center, one draw call of
distance 100 at heading 0, end position 100 units up. -/
theorem c4_witness :
    Turtle.forward unsvgT 100 ((Turtle.new unsvgT).penDown) =
      .ok { drawn := [⟨100, 100, 0, 100, 7⟩], vars := [], x := 100, y := 0
          , heading := 0, pen_down := true, pen_color := 7 }
    ∧ runProgram unsvgT 5 [.Procedure .PenDown, .Procedure (.Forward (.Float 100))]
        (Turtle.new unsvgT) =
      .ok (.ok { drawn := [⟨100, 100, 0, 100, 7⟩], vars := [], x := 100, y := 0
               , heading := 0, pen_down := true, pen_color := 7 }) := by
  have h := c4_forward_scenario unsvgT 100 ((Turtle.new unsvgT).penDown)
  have hget : ∀ x y dd : Rat, unsvgT.get_end_coordinates x y 0 dd = (x, y - dd) := by
    intro x y dd
    simp [unsvgT, rsub_eq]
  have hdraw : ∀ (x y dd : Rat) (col : Nat), unsvgT.draw_line_err x y 0 dd col = none := by
    intro x y dd col
    rfl
  refine ⟨(h.1 rfl rfl).trans rfl, (h.2.2.2 hget hdraw).trans ?_⟩
  norm_num [unsvgT]

theorem lookup_filter_ne (y x : String) (h : y ≠ x) (l : List (String × Expression)) :
    (l.filter (fun p => p.1 ≠ x)).lookup y = l.lookup y := by
  induction l with
  | nil => rfl
  | cons hd tl ih =>
    obtain ⟨k, w⟩ := hd
    by_cases hx : k = x
    · subst hx
      rw [List.filter_cons_of_neg (by simp), ih]
      have hy : (y == k) = false := beq_eq_false_iff_ne.mpr h
      simp [List.lookup, hy]
    · rw [List.filter_cons_of_pos (by simp [hx])]
      simp only [List.lookup]
      cases hyh : y == k with
      | true => rfl
      | false => simpa using ih

/-- C5: `Make` stores the value expression (math values first reduced to a
literal) under the name, overwriting any prior binding and leaving other
names alone; `AddAssign` requires the name bound, reads its numeric value,
adds the numeric-coerced delta and rebinds the sum; and on the parsed source
`MAKE "x "10 / ADDASSIGN "x "5 / FORWARD :x` the variable `x` is bound to 10,
then rebound to 15, and the turtle moves 15 units (here: 15 up from the
center at heading 0, for any collaborator with the pinned heading-0
behaviour). -/
theorem c5_make_addassign (U : Unsvg) (fuel : Nat) (x : String) (v : Expression)
    (m : Math) (delta ev : Expression) (cur add : Rat) (t : Turtle) :
    ((∀ mm, v ≠ .Math mm) →
      execute U (fuel + 1) (.Procedure (.Make (.Variable x) v)) t =
        .ok (.ok (t.add_variable x v)))
    ∧ (∀ w, eval_math (fuel + 1) (.Math m) t = .ok w →
      execute U (fuel + 1) (.Procedure (.Make (.Variable x) (.Math m))) t =
        .ok (.ok (t.add_variable x w)))
    ∧ ((t.add_variable x v).get_variable x = some v)
    ∧ (∀ y, y ≠ x → (t.add_variable x v).get_variable y = t.get_variable y)
    ∧ (t.get_variable x = some ev → to_float (fuel + 1) ev t = .ok (some cur) →
      to_float (fuel + 1) delta t = .ok (some add) →
      execute U (fuel + 1) (.Procedure (.AddAssign (.Variable x) delta)) t =
        .ok (.ok (t.add_variable x (.Float (cur + add)))))
    ∧ parse_content "MAKE \"x \"10\nADDASSIGN \"x \"5\nFORWARD :x" =
        some ([ .Procedure (.Make (.Variable "x") (.Float 10))
              , .Procedure (.AddAssign (.Variable "x") (.Float 5))
              , .Procedure (.Forward (.Variable "x"))], [])
    ∧ (execute U 5 (.Procedure (.Make (.Variable "x") (.Float 10))) (Turtle.new U) =
        .ok (.ok ((Turtle.new U).add_variable "x" (.Float 10))))
    ∧ (((Turtle.new U).add_variable "x" (.Float 10)).get_variable "x" = some (.Float 10))
    ∧ (execute U 5 (.Procedure (.AddAssign (.Variable "x") (.Float 5)))
        ((Turtle.new U).add_variable "x" (.Float 10)) =
        .ok (.ok (((Turtle.new U).add_variable "x" (.Float 10)).add_variable "x"
          (.Float 15))))
    ∧ ((((Turtle.new U).add_variable "x" (.Float 10)).add_variable "x"
        (.Float 15)).get_variable "x" = some (.Float 15))
    ∧ ((∀ xx yy dd, U.get_end_coordinates xx yy 0 dd = (xx, yy - dd)) →
      runProgram U 5
        [ .Procedure (.Make (.Variable "x") (.Float 10))
        , .Procedure (.AddAssign (.Variable "x") (.Float 5))
        , .Procedure (.Forward (.Variable "x"))] (Turtle.new U) =
      .ok (.ok { drawn := [], vars := [("x", .Float 15)]
               , x := (U.width : Rat) / 2, y := (U.height : Rat) / 2 - 15
               , heading := 0, pen_down := false, pen_color := 7 })) := by
  refine ⟨?_, ?_, ?_, ?_, ?_, rfl, rfl, rfl, rfl, rfl, ?_⟩
  · intro hnm
    cases v with
    | Math mm => exact absurd rfl (hnm mm)
    | Float q => rfl
    | Query q => rfl
    | Variable s => rfl
    | String s => rfl
    | Bool c => rfl
  · intro w hm
    simp only [eval_math] at hm
    simp only [execute, execsAt, mbind_ok]
    rw [hm, mbind_ok]
  · simp [Turtle.add_variable, Turtle.get_variable, List.lookup]
  · intro y hy
    have hyx : (y == x) = false := beq_eq_false_iff_ne.mpr hy
    simp only [Turtle.add_variable, Turtle.get_variable, List.lookup, hyx]
    exact lookup_filter_ne y x hy t.vars
  · intro hv hc ha
    simp only [to_float] at hc ha
    simp only [execute, execsAt, mbind_ok, expectVal]
    rw [hv]
    simp only [mbind_ok]
    rw [hc]
    simp only [mbind_ok]
    rw [ha]
    simp only [mbind_ok, ← radd_eq]
  · intro hget
    have step : runProgram U 5
        [ .Procedure (.Make (.Variable "x") (.Float 10))
        , .Procedure (.AddAssign (.Variable "x") (.Float 5))
        , .Procedure (.Forward (.Variable "x"))] (Turtle.new U) =
        match Turtle.forward U 15 (((Turtle.new U).add_variable "x"
            (.Float 10)).add_variable "x" (.Float 15)) with
        | .ok t' => .ok (.ok t')
        | .err t' e => .ok (.err t' e) := rfl
    rw [step]
    have hfwd : Turtle.forward U 15 (((Turtle.new U).add_variable "x"
        (.Float 10)).add_variable "x" (.Float 15)) =
        .ok { drawn := [], vars := [("x", .Float 15)]
            , x := (U.width : Rat) / 2, y := (U.height : Rat) / 2 - 15
            , heading := 0, pen_down := false, pen_color := 7 } := by
      simp only [Turtle.forward, Turtle.add_variable, Turtle.new, f32ToI32_zero]
      rw [hget]
      simp [rdiv_eq]
    rw [hfwd]

/-- C5 witness: the Make/AddAssign theorem applied at the concrete
collaborator `unsvgT`: `x` is bound to 10, rebound to 10 + 5, and the parsed
three-statement source moves the turtle 15 units up from the center. -/
theorem c5_witness :
    execute unsvgT 5 (.Procedure (.Make (.Variable "x") (.Float 10))) (Turtle.new unsvgT) =
      .ok (.ok ((Turtle.new unsvgT).add_variable "x" (.Float 10)))
    ∧ execute unsvgT 5 (.Procedure (.AddAssign (.Variable "x") (.Float 5)))
        ((Turtle.new unsvgT).add_variable "x" (.Float 10)) =
      .ok (.ok (((Turtle.new unsvgT).add_variable "x" (.Float 10)).add_variable "x"
        (.Float (10 + 5))))
    ∧ runProgram unsvgT 5
        [ .Procedure (.Make (.Variable "x") (.Float 10))
        , .Procedure (.AddAssign (.Variable "x") (.Float 5))
        , .Procedure (.Forward (.Variable "x"))] (Turtle.new unsvgT) =
      .ok (.ok { drawn := [], vars := [("x", .Float 15)]
               , x := (unsvgT.width : Rat) / 2, y := (unsvgT.height : Rat) / 2 - 15
               , heading := 0, pen_down := false, pen_color := 7 }) := by
  have hget : ∀ xx yy dd : Rat, unsvgT.get_end_coordinates xx yy 0 dd = (xx, yy - dd) := by
    intro xx yy dd
    simp [unsvgT, rsub_eq]
  refine ⟨?_, ?_, ?_⟩
  · exact (c5_make_addassign unsvgT 4 "x" (.Float 10) (.Add (.Float 0) (.Float 0))
      (.Float 5) (.Float 10) 10 5 (Turtle.new unsvgT)).1
      (fun mm hh => Expression.noConfusion hh)
  · exact (c5_make_addassign unsvgT 4 "x" (.Float 10) (.Add (.Float 0) (.Float 0))
      (.Float 5) (.Float 10) 10 5
      ((Turtle.new unsvgT).add_variable "x" (.Float 10))).2.2.2.2.1 rfl rfl rfl
  · exact (c5_make_addassign unsvgT 4 "x" (.Float 10) (.Add (.Float 0) (.Float 0))
      (.Float 5) (.Float 10) 10 5 (Turtle.new unsvgT)).2.2.2.2.2.2.2.2.2.2 hget

/-- C6: evaluating a math division node whose divisor reduces to the float 0
is a fatal evaluation error (the division-by-zero panic), never a special
float value; in particular the parsed source `MAKE "r / "10 "0` aborts the
run with that error. -/
theorem c6_div_by_zero (U : Unsvg) (fuel : Nat) (e1 e2 : Expression) (t : Turtle)
    (v1 : Rat) :
    (eval_math fuel e1 t = .ok (.Float v1) →
      eval_math fuel e2 t = .ok (.Float 0) →
      eval_math (fuel + 1) (.Math (.Div e1 e2)) t = .error .panicF)
    ∧ parse_content "MAKE \"r / \"10 \"0" =
        some ([.Procedure (.Make (.Variable "r") (.Math (.Div (.Float 10) (.Float 0))))], [])
    ∧ runProgram U 5
        [.Procedure (.Make (.Variable "r") (.Math (.Div (.Float 10) (.Float 0))))]
        (Turtle.new U) = .error .panicF := by
  refine ⟨?_, rfl, rfl⟩
  intro h1 h2
  simp only [eval_math] at h1 h2
  simp only [eval_math, evalsAt]
  rw [h1, mbind_ok, h2, mbind_ok]
  rfl

/-- C6 witness: the division theorem applied to the literal quotient 10 / 0. -/
theorem c6_witness :
    eval_math 3 (.Math (.Div (.Float 10) (.Float 0))) (Turtle.new unsvgT) =
      .error .panicF :=
  (c6_div_by_zero unsvgT 2 (.Float 10) (.Float 0) (Turtle.new unsvgT) 10).1 rfl rfl

theorem takeWhile_before_newline (body rest : List Char) (h : '\n' ∉ body) :
    (body ++ '\n' :: rest).takeWhile (fun ch => ch ≠ '\n') = body := by
  induction body with
  | nil => simp
  | cons c cs ih =>
    have hc : c ≠ '\n' := fun hh => h (hh ▸ List.mem_cons_self c cs)
    have hcs : '\n' ∉ cs := fun hh => h (List.mem_cons_of_mem c hh)
    simp [List.takeWhile_cons, hc]
    simpa using ih hcs

theorem dropWhile_before_newline (body rest : List Char) (h : '\n' ∉ body) :
    (body ++ '\n' :: rest).dropWhile (fun ch => ch ≠ '\n') = '\n' :: rest := by
  induction body with
  | nil => simp
  | cons c cs ih =>
    have hc : c ≠ '\n' := fun hh => h (hh ▸ List.mem_cons_self c cs)
    have hcs : '\n' ∉ cs := fun hh => h (List.mem_cons_of_mem c hh)
    simp [List.dropWhile_cons, hc]
    simpa using ih hcs

theorem tokenizeFuel_span_lb (fuel : Nat) : ∀ (l : List Char) (pos : Nat)
    (x : Token × Nat × Nat), x ∈ tokenizeFuel fuel l pos → pos ≤ x.2.1 := by
  induction fuel with
  | zero =>
    intro l pos x hmem
    simp [tokenizeFuel] at hmem
  | succ fuel ih =>
    intro l pos x hmem
    cases l with
    | nil => simp [tokenizeFuel] at hmem
    | cons c cs =>
      simp only [tokenizeFuel] at hmem
      repeat' split at hmem
      all_goals
        first
        | (rcases List.mem_cons.mp hmem with heq | hmem2
           · subst heq
             simp
           · have hle := ih _ _ _ hmem2
             omega)
        | (have hle := ih _ _ _ hmem
           omega)

/-- C9 (amended): a line comment `//…` terminated by a newline is elided by
the lexer — at any lexing position, the comment and its newline are skipped
whole, lexing resumes immediately after them, and every token subsequently
emitted lies beyond the comment.  (A comment on the last line that is not
followed by a newline is NOT elided: the skip regex `//.*\n` requires the
newline, and the input is then lexed as two `Div` tokens instead — see the
counterexample.) -/
theorem c9_comment_elision (body rest : List Char) (pos fuel : Nat)
    (h : '\n' ∉ body) :
    tokenizeFuel (fuel + 1) ('/' :: '/' :: (body ++ '\n' :: rest)) pos =
      tokenizeFuel fuel rest (pos + 2 + body.length + 1)
    ∧ (∀ x : Token × Nat × Nat,
        x ∈ tokenizeFuel (fuel + 1) ('/' :: '/' :: (body ++ '\n' :: rest)) pos →
        pos + 2 + body.length + 1 ≤ x.2.1) := by
  have hd := dropWhile_before_newline body rest h
  have ht := takeWhile_before_newline body rest h
  have hstep : tokenizeFuel (fuel + 1) ('/' :: '/' :: (body ++ '\n' :: rest)) pos =
      tokenizeFuel fuel rest (pos + 2 + body.length + 1) := by
    simp only [tokenizeFuel, hd, ht]
    rfl
  refine ⟨hstep, ?_⟩
  intro x hx
  rw [hstep] at hx
  exact tokenizeFuel_span_lb fuel rest (pos + 2 + body.length + 1) x hx

/-- C9 counterexample: the source `//` — a comment on the last line of the
input with no trailing newline — is not elided; the lexer emits two `Div`
tokens for its characters, against the claim that no token is produced for
any character of a comment. -/
theorem c9_counterexample :
    tokenize "//" = [(Token.Div, 0, 1), (Token.Div, 1, 2)]
    ∧ tokenize "//" ≠ [] := by
  exact ⟨rfl, by decide⟩

/-- C9 witness: the elision theorem applied to the source fragment
`//ab<newline>PENUP` at position 0 — the comment produces no token and the
remainder is lexed from position 5. -/
theorem c9_witness :
    tokenizeFuel 10 ('/' :: '/' :: (['a', 'b'] ++ '\n' :: "PENUP".data)) 0 =
      tokenizeFuel 9 "PENUP".data (0 + 2 + 2 + 1)
    ∧ (∀ x : Token × Nat × Nat,
        x ∈ tokenizeFuel 10 ('/' :: '/' :: (['a', 'b'] ++ '\n' :: "PENUP".data)) 0 →
        0 + 2 + 2 + 1 ≤ x.2.1) := by
  have h := c9_comment_elision ['a', 'b'] "PENUP".data 0 9 (by decide)
  exact h
